import Mathlib

/-!
# Verification of Chromium build-support utilities

Shallow embedding of two Python build scripts:

* `build/linux/sysroot_scripts/install-sysroot.py` — the sysroot image
  installer (lookup table, freshness check via stamp file, download,
  checksum verification, extraction, stamping, and the default selection
  policy driven from `main`).
* `services/service_manager/public/tools/manifest/manifest_collator.py` —
  the `MergeDicts` deep-merge helper.

File-system state, network transfers and process output are modelled
explicitly: an install call consumes a `World` (the observable state of the
target sysroot directory plus a network oracle giving the SHA-1 digest of
the content served at each URL) and produces the new world together with a
trace of the side effects it performed, in order.
-/

namespace SysrootInstaller

/-- One entry of the `SYSROOTS` table: revision id, tarball filename,
expected SHA-1 digest and local directory name. -/
structure SysrootRecord where
  revision : String
  tarball : String
  sha1sum : String
  sysrootDir : String
  deriving DecidableEq, Repr

def URL_PREFIX : String := "https://commondatastorage.googleapis.com"

def URL_PATH : String := "chrome-linux-sysroot/toolchain"

/-- The fixed `SYSROOTS` table, keyed by (platform, architecture). -/
def SYSROOTS : List ((String × String) × SysrootRecord) :=
  [ (("Wheezy", "amd64"),
     { revision := "e964581657e61f47a74b7e2e34e33744ac53d5a6"
       tarball := "debian_wheezy_amd64_sysroot.tgz"
       sha1sum := "d67377aedc8ca477a50cc75aeb59542c8cd98894"
       sysrootDir := "debian_wheezy_amd64-sysroot" }),
    (("Wheezy", "arm"),
     { revision := "e964581657e61f47a74b7e2e34e33744ac53d5a6"
       tarball := "debian_wheezy_arm_sysroot.tgz"
       sha1sum := "ab538d29171823951a330ba7f8ac1502f3670ebe"
       sysrootDir := "debian_wheezy_arm-sysroot" }),
    (("Wheezy", "i386"),
     { revision := "e964581657e61f47a74b7e2e34e33744ac53d5a6"
       tarball := "debian_wheezy_i386_sysroot.tgz"
       sha1sum := "8d7f58fc77be09cad83f246a5d730de45ac48efb"
       sysrootDir := "debian_wheezy_i386-sysroot" }),
    (("Wheezy", "mips"),
     { revision := "e964581657e61f47a74b7e2e34e33744ac53d5a6"
       tarball := "debian_wheezy_mips_sysroot.tgz"
       sha1sum := "9960b7398487038709bdb8419c144ebee5eff061"
       sysrootDir := "debian_wheezy_mips-sysroot" }),
    (("Jessie", "arm64"),
     { revision := "e964581657e61f47a74b7e2e34e33744ac53d5a6"
       tarball := "debian_jessie_arm64_sysroot.tgz"
       sha1sum := "035e6abf3bd8e6c5e8ce27cf62b6502cbffefe6b"
       sysrootDir := "debian_jessie_arm64-sysroot" }),
    (("Precise", "amd64"),
     { revision := "e964581657e61f47a74b7e2e34e33744ac53d5a6"
       tarball := "ubuntu_precise_amd64_sysroot.tgz"
       sha1sum := "9f13ac5b78027082ff7e7c34d55533dcb85a2c01"
       sysrootDir := "ubuntu_precise_amd64-sysroot" }) ]

/-- Membership test and lookup `SYSROOTS[(tp, ta)]` on the table. -/
def lookupSysroot (tp ta : String) : Option SysrootRecord :=
  (SYSROOTS.find? (fun e => e.1 = (tp, ta))).map (·.2)

def valid_archs : List String := ["arm", "arm64", "i386", "amd64", "mips"]

/-- The composed URL `'%s/%s/%s/%s' % (URL_PREFIX, URL_PATH, revision, tarball_filename)`. -/
def sysrootURL (d : SysrootRecord) : String :=
  URL_PREFIX ++ "/" ++ URL_PATH ++ "/" ++ d.revision ++ "/" ++ d.tarball

/-- One observable side effect of `InstallSysroot`, in the order the script
performs them. -/
inductive Event where
  /-- a `print` statement (standard output) -/
  | printMsg (msg : String)
  /-- the call `shutil.rmtree(sysroot)` -/
  | rmtree (dir : String)
  /-- the call `os.mkdir(sysroot)` -/
  | mkdir (dir : String)
  /-- the transfer `wget ... -O tarball url` (the only network access) -/
  | download (url : String)
  /-- the call `tar xf tarball -C sysroot` -/
  | extract (dir : String)
  /-- the call `os.remove(tarball)` -/
  | removeTarball (path : String)
  /-- writing the stamp file with the given content -/
  | writeStamp (content : String)
  deriving DecidableEq, Repr

/-- Whether an event touches the network or mutates the filesystem
(everything except printing). -/
def Event.isEffect : Event → Bool
  | .printMsg _ => false
  | _ => true

/-- The observable state of one target sysroot directory, plus the network
oracle: `downloadSha1 url` is the SHA-1 hex digest (as computed by
`GetSha1` over the downloaded file) of the content the server returns for
`url`. `linuxDir` is `os.path.dirname(SCRIPT_DIR)`. -/
structure World where
  linuxDir : String
  /-- whether `os.path.isdir(sysroot)` holds -/
  dirExists : Bool
  /-- content of `sysroot/.stamp` when that file exists -/
  stamp : Option String
  downloadSha1 : String → String

/-- Result of one `InstallSysroot` call: the ordered effect trace, the
outcome (`Except.error` models a raised `Error`), and the final state. -/
structure InstallResult where
  events : List Event
  outcome : Except String Unit
  world : World

/-- Shallow embedding of `InstallSysroot(target_platform, target_arch)`.

Faithful step order: table lookup (raising
`'No sysroot for: %s %s'`), URL construction, stamp freshness check
(early return printing `already up to date`), `rmtree` of an existing
directory, `mkdir`, download, SHA-1 comparison (raising the two-digest
message), extraction, tarball removal, stamp write. A freshly created
directory contains no stamp file, so the stamp component is cleared at
`mkdir`. -/
def InstallSysroot (w : World) (target_platform target_arch : String) :
    InstallResult :=
  match lookupSysroot target_platform target_arch with
  | none =>
      { events := []
        outcome := .error ("No sysroot for: " ++ target_platform ++ " " ++ target_arch)
        world := w }
  | some d =>
      let sysroot := w.linuxDir ++ "/" ++ d.sysrootDir
      let url := sysrootURL d
      if w.stamp = some url then
        { events := [.printMsg ("Debian " ++ target_platform ++ " " ++ target_arch ++
                       " root image already up to date: " ++ sysroot)]
          outcome := .ok ()
          world := w }
      else
        let ev0 : List Event :=
          [.printMsg ("Installing Debian " ++ target_platform ++ " " ++ target_arch ++
             " root image: " ++ sysroot)]
        let ev1 : List Event := if w.dirExists then [.rmtree sysroot] else []
        let w1 : World := { w with dirExists := true, stamp := none }
        let tarball := sysroot ++ "/" ++ d.tarball
        let ev2 : List Event :=
          [.mkdir sysroot, .printMsg ("Downloading " ++ url), .download url]
        let sha1 := w.downloadSha1 url
        if sha1 ≠ d.sha1sum then
          { events := ev0 ++ ev1 ++ ev2
            outcome := .error ("Tarball sha1sum is wrong." ++
              "Expected " ++ d.sha1sum ++ ", actual: " ++ sha1)
            world := w1 }
        else
          { events := ev0 ++ ev1 ++ ev2 ++
              [.extract sysroot, .removeTarball tarball, .writeStamp url]
            outcome := .ok ()
            world := { w1 with stamp := some url } }

/-- Shallow embedding of `InstallDefaultSysrootForArch(target_arch)`:
the (platform, architecture) key it passes to `InstallSysroot`, or the
`'Unknown architecture'` error raised by its final branch. -/
def InstallDefaultSysrootForArch (target_arch : String) :
    Except String (String × String) :=
  if target_arch = "amd64" then .ok ("Wheezy", "amd64")
  else if target_arch = "arm" then .ok ("Wheezy", "arm")
  else if target_arch = "arm64" then .ok ("Jessie", "arm64")
  else if target_arch = "i386" then .ok ("Wheezy", "i386")
  else if target_arch = "mips" then .ok ("Wheezy", "mips")
  else .error ("Unknown architecture: " ++ target_arch)

/-- Shallow embedding of the selection made by `InstallDefaultSysroots(host_arch)`:
the ordered list of (platform, architecture) keys passed to `InstallSysroot`.
`target_arch` stands for the result of `DetectTargetArch()` (an external
reader of the build configuration; `none` when no target is configured).
Faithful order: host sysroot, then the i386 sysroot when the host is amd64,
then the fixed `('Precise', 'amd64')` sysroot, then the detected target
sysroot when `target_arch` is set and not in `(host_arch, 'i386')`. -/
def InstallDefaultSysroots (host_arch : String) (target_arch : Option String) :
    Except String (List (String × String)) := do
  let k1 ← InstallDefaultSysrootForArch host_arch
  let ks2 ←
    if host_arch = "amd64" then do
      let k ← InstallDefaultSysrootForArch "i386"
      pure [k]
    else pure ([] : List (String × String))
  let ks4 ←
    match target_arch with
    | some t =>
        if t ≠ host_arch ∧ t ≠ "i386" then do
          let k ← InstallDefaultSysrootForArch t
          pure [k]
        else pure ([] : List (String × String))
    | none => pure ([] : List (String × String))
  pure ([k1] ++ ks2 ++ [("Precise", "amd64")] ++ ks4)

/-- Observable outcome of running the script: process exit code and the
lines written to standard output and standard error. -/
structure MainResult where
  exitCode : Nat
  stdout : List String
  stderr : List String
  deriving DecidableEq, Repr

/-- Shallow embedding of `main(args)` together with the `__main__`
try/except wrapper (which writes `str(e)` to standard error and exits 1).

`isLinux` is `sys.platform.startswith('linux')`; `running_as_hook` and
`arch` are the parsed options; `host_arch` stands for `DetectHostArch()`;
`install` abstracts the outcome of the selected install calls (`.ok` when
they all succeed, `.error e` when one raises `Error(e)`).

Note the missing-arguments branch is a Python 2 `print` statement, which
writes to standard output, then `return 1`. -/
def main (isLinux : Bool) (running_as_hook : Bool) (arch : Option String)
    (host_arch : String) (install : Except String Unit) : MainResult :=
  if running_as_hook ∧ ¬isLinux then
    { exitCode := 0, stdout := [], stderr := [] }
  else if running_as_hook then
    if host_arch = "ppc" ∨ host_arch = "s390" then
      { exitCode := 0, stdout := [], stderr := [] }
    else
      match install with
      | .ok _ => { exitCode := 0, stdout := [], stderr := [] }
      | .error e => { exitCode := 1, stdout := [], stderr := [e] }
  else
    match arch with
    | none =>
        { exitCode := 1
          stdout := ["You much specify either --arch or --running-as-hook"]
          stderr := [] }
    | some _ =>
        match install with
        | .ok _ => { exitCode := 0, stdout := [], stderr := [] }
        | .error e => { exitCode := 1, stdout := [], stderr := [e] }

/-- The `('Wheezy', 'amd64')` record of the table, spelled out. -/
def wheezyAmd64 : SysrootRecord :=
  { revision := "e964581657e61f47a74b7e2e34e33744ac53d5a6"
    tarball := "debian_wheezy_amd64_sysroot.tgz"
    sha1sum := "d67377aedc8ca477a50cc75aeb59542c8cd98894"
    sysrootDir := "debian_wheezy_amd64-sysroot" }

/-- World with a stamp matching the `('Wheezy', 'amd64')` URL. -/
def wStampMatch : World :=
  { linuxDir := "build/linux"
    dirExists := true
    stamp := some (sysrootURL wheezyAmd64)
    downloadSha1 := fun _ => "d67377aedc8ca477a50cc75aeb59542c8cd98894" }

/-- World with a stale stamp and a server delivering the right content. -/
def wStale : World :=
  { linuxDir := "build/linux"
    dirExists := true
    stamp := some "https://old.example/stale"
    downloadSha1 := fun _ => "d67377aedc8ca477a50cc75aeb59542c8cd98894" }

/-- Fresh world (no directory, no stamp) whose server delivers corrupt
content (wrong SHA-1). -/
def wBadSha : World :=
  { linuxDir := "build/linux"
    dirExists := false
    stamp := none
    downloadSha1 := fun _ => "feedfeedfeedfeedfeedfeedfeedfeedfeedfeed" }

end SysrootInstaller

namespace ManifestCollator

/-- JSON-like values handled by `manifest_collator.py` (the result of
`json.loads`). -/
inductive JValue where
  | null
  | bool (b : Bool)
  | num (n : Int)
  | str (s : String)
  | arr (elems : List JValue)
  | obj (entries : List (String × JValue))

/-- Membership test `k in d` and access `d[k]` over a Python dict modelled as an association list
(first matching key wins; a genuine dict has no duplicate keys). -/
def lookupKey : List (String × JValue) → String → Option JValue
  | [], _ => none
  | (k', v) :: rest, k => if k' = k then some v else lookupKey rest k

/-- Assignment `d[k] = v` on an existing key: replace the (first) entry for `k`. -/
def updateKey : List (String × JValue) → String → JValue → List (String × JValue)
  | [], _, _ => []
  | (k', v') :: rest, k, v =>
      if k' = k then (k, v) :: rest else (k', v') :: updateKey rest k v

mutual

/-- Shallow embedding of `MergeDicts(left, right)`: fold the body of the
`for k, v in right.iteritems()` loop over `right`'s entries.  `.error`
models a raised exception (a failed `assert` or the terminal `raise`). -/
def MergeDicts (left : List (String × JValue)) :
    List (String × JValue) → Except String (List (String × JValue))
  | [] => .ok left
  | (k, v) :: rest =>
      match mergeEntry left k v with
      | .ok left1 => MergeDicts left1 rest
      | .error e => .error e
termination_by r => sizeOf r

/-- One iteration of the `MergeDicts` loop for the entry `(k, v)` of
`right`: insert when `k not in left`, otherwise recursively merge dicts,
extend lists, and refuse to merge anything else. -/
def mergeEntry (left : List (String × JValue)) (k : String) (v : JValue) :
    Except String (List (String × JValue)) :=
  match lookupKey left k with
  | none => .ok (left ++ [(k, v)])
  | some lv =>
      match v, lv with
      | .obj rentries, .obj lentries =>
          match MergeDicts lentries rentries with
          | .ok merged => .ok (updateKey left k (.obj merged))
          | .error e => .error e
      | .obj _, _ => .error "AssertionError: isinstance(left[k], dict)"
      | .arr relems, .arr lelems =>
          .ok (updateKey left k (.arr (lelems ++ relems)))
      | .arr _, _ => .error "AssertionError: isinstance(left[k], list)"
      | _, _ => .error "Refusing to merge conflicting non-collection values."
termination_by sizeOf v

end

/-- Sample manifest body (left operand of a merge). -/
def wL : List (String × JValue) :=
  [("name", .str "svc"), ("capabilities", .obj [("a", .arr [.num 1])]),
   ("services", .arr [.str "x"])]

/-- Sample overlay body (right operand of a merge). -/
def wR : List (String × JValue) :=
  [("extra", .num 7), ("capabilities", .obj [("a", .arr [.num 2]), ("b", .bool true)]),
   ("services", .arr [.str "y"])]

end ManifestCollator

namespace SysrootInstaller

/-- Helper: whenever `InstallSysroot` returns successfully for a key
resolving to record `d`, the final stamp content is `d`'s composed URL
(either the pre-existing matching stamp, or the one written in the last
step). -/
theorem InstallSysroot_stamp_of_ok (w : World) (tp ta : String) (d : SysrootRecord)
    (hl : lookupSysroot tp ta = some d)
    (hok : (InstallSysroot w tp ta).outcome = .ok ()) :
    (InstallSysroot w tp ta).world.stamp = some (sysrootURL d) := by
  by_cases hs : w.stamp = some (sysrootURL d)
  · simp [InstallSysroot, hl, hs]
  · by_cases hsha : w.downloadSha1 (sysrootURL d) = d.sha1sum
    · simp [InstallSysroot, hl, hs, hsha]
    · exfalso
      simp [InstallSysroot, hl, hs, hsha] at hok

/-- Helper: with a matching stamp, `InstallSysroot` short-circuits:
success, unchanged world, and a single print as its whole trace. -/
theorem InstallSysroot_upToDate (w : World) (tp ta : String) (d : SysrootRecord)
    (hl : lookupSysroot tp ta = some d)
    (hs : w.stamp = some (sysrootURL d)) :
    (InstallSysroot w tp ta).outcome = .ok () ∧
    (InstallSysroot w tp ta).world = w ∧
    (InstallSysroot w tp ta).events =
      [.printMsg ("Debian " ++ tp ++ " " ++ ta ++ " root image already up to date: " ++
         (w.linuxDir ++ "/" ++ d.sysrootDir))] := by
  refine ⟨?_, ?_, ?_⟩ <;> simp [InstallSysroot, hl, hs]

/-- C1: when the stamp exists and matches the canonical URL for the
record, `InstallSysroot` prints the `already up to date` report, succeeds,
leaves the world unchanged, and performs no network or filesystem effect;
consequently a second invocation right after any successful install
mutates nothing and touches no network. -/
theorem installSysroot_idempotent (w : World) (tp ta : String) (d : SysrootRecord)
    (hl : lookupSysroot tp ta = some d)
    (hs : w.stamp = some (sysrootURL d)) :
    ((InstallSysroot w tp ta).outcome = .ok () ∧
     (InstallSysroot w tp ta).world = w ∧
     (InstallSysroot w tp ta).events =
       [.printMsg ("Debian " ++ tp ++ " " ++ ta ++ " root image already up to date: " ++
          (w.linuxDir ++ "/" ++ d.sysrootDir))] ∧
     ∀ e ∈ (InstallSysroot w tp ta).events, e.isEffect = false) ∧
    ∀ w₀ : World, (InstallSysroot w₀ tp ta).outcome = .ok () →
      (InstallSysroot (InstallSysroot w₀ tp ta).world tp ta).world =
          (InstallSysroot w₀ tp ta).world ∧
      ∀ e ∈ (InstallSysroot (InstallSysroot w₀ tp ta).world tp ta).events,
        e.isEffect = false := by
  constructor
  · obtain ⟨h1, h2, h3⟩ := InstallSysroot_upToDate w tp ta d hl hs
    refine ⟨h1, h2, h3, ?_⟩
    intro e he
    rw [h3] at he
    simp at he
    simp [he, Event.isEffect]
  · intro w₀ hok
    have hstamp := InstallSysroot_stamp_of_ok w₀ tp ta d hl hok
    obtain ⟨-, h2, h3⟩ :=
      InstallSysroot_upToDate (InstallSysroot w₀ tp ta).world tp ta d hl hstamp
    refine ⟨h2, ?_⟩
    intro e he
    rw [h3] at he
    simp at he
    simp [he, Event.isEffect]

/-- C3: after every successful install the stamp content is exactly the
URL joining prefix, path segment, the record's revision and its tarball
filename with single `/` separators. -/
theorem installSysroot_stamp_correct (w : World) (tp ta : String) (d : SysrootRecord)
    (hl : lookupSysroot tp ta = some d)
    (hok : (InstallSysroot w tp ta).outcome = .ok ()) :
    (InstallSysroot w tp ta).world.stamp =
      some ( URL_PREFIX ++ "/" ++ URL_PATH ++ "/" ++ d.revision ++ "/" ++ d.tarball) :=
  InstallSysroot_stamp_of_ok w tp ta d hl hok

/-- C2: when the stamp check does not short-circuit and the downloaded
content hashes to something other than the record's expected digest,
`InstallSysroot` raises the error naming both digests, the stamp is not
written (the final stamp state is empty), and the trace contains neither
an extract step nor a stamp write. -/
theorem installSysroot_checksum_mismatch (w : World) (tp ta : String) (d : SysrootRecord)
    (hl : lookupSysroot tp ta = some d)
    (hs : w.stamp ≠ some (sysrootURL d))
    (hsha : w.downloadSha1 (sysrootURL d) ≠ d.sha1sum) :
    (InstallSysroot w tp ta).outcome =
      .error ("Tarball sha1sum is wrong." ++ "Expected " ++ d.sha1sum ++ ", actual: " ++
        w.downloadSha1 (sysrootURL d)) ∧
    (InstallSysroot w tp ta).world.stamp = none ∧
    ∀ e ∈ (InstallSysroot w tp ta).events,
      (∀ c, e ≠ .writeStamp c) ∧ (∀ dir, e ≠ .extract dir) := by
  refine ⟨?_, ?_, ?_⟩
  · simp [InstallSysroot, hl, hs, hsha]
  · simp [InstallSysroot, hl, hs, hsha]
  · intro e he
    by_cases hd : w.dirExists = true
    · simp [InstallSysroot, hl, hs, hsha, hd] at he
      rcases he with rfl | rfl | rfl | rfl | rfl <;> simp
    · simp [InstallSysroot, hl, hs, hsha, hd] at he
      rcases he with rfl | rfl | rfl | rfl <;> simp

/-- C4: when the stamp is missing or stale while the target directory
exists, `InstallSysroot` removes the directory, recreates it, re-downloads
the tarball, and (when the content verifies) re-extracts and re-stamps —
the complete pipeline, never an incremental update. -/
theorem installSysroot_stale_reset (w : World) (tp ta : String) (d : SysrootRecord)
    (hl : lookupSysroot tp ta = some d)
    (hs : w.stamp ≠ some (sysrootURL d))
    (hd : w.dirExists = true) :
    (InstallSysroot w tp ta).events =
      [.printMsg ("Installing Debian " ++ tp ++ " " ++ ta ++ " root image: " ++
         (w.linuxDir ++ "/" ++ d.sysrootDir)),
       .rmtree (w.linuxDir ++ "/" ++ d.sysrootDir),
       .mkdir (w.linuxDir ++ "/" ++ d.sysrootDir),
       .printMsg ("Downloading " ++ sysrootURL d),
       .download (sysrootURL d)] ++
      (if w.downloadSha1 (sysrootURL d) = d.sha1sum then
         [.extract (w.linuxDir ++ "/" ++ d.sysrootDir),
          .removeTarball (w.linuxDir ++ "/" ++ d.sysrootDir ++ "/" ++ d.tarball),
          .writeStamp (sysrootURL d)]
       else []) := by
  by_cases hsha : w.downloadSha1 (sysrootURL d) = d.sha1sum <;>
    simp [InstallSysroot, hl, hs, hd, hsha]

/-- C5: a key absent from the table makes `InstallSysroot` raise
`'No sysroot for: ...'` with an empty effect trace and an unchanged
world. -/
theorem installSysroot_unknown_rejected (w : World) (tp ta : String)
    (hl : lookupSysroot tp ta = none) :
    InstallSysroot w tp ta =
      { events := []
        outcome := .error ("No sysroot for: " ++ tp ++ " " ++ ta)
        world := w } := by
  simp [InstallSysroot, hl]

/-- Witness for C1 at the `('Wheezy', 'amd64')` record and a world whose
stamp matches its URL. -/
theorem installSysroot_idempotent_witness :
    (InstallSysroot wStampMatch "Wheezy" "amd64").outcome = .ok () ∧
    (InstallSysroot wStampMatch "Wheezy" "amd64").world = wStampMatch :=
  ⟨(installSysroot_idempotent wStampMatch "Wheezy" "amd64" wheezyAmd64 rfl rfl).1.1,
   (installSysroot_idempotent wStampMatch "Wheezy" "amd64" wheezyAmd64 rfl rfl).1.2.1⟩

/-- Witness for C2 at the `('Wheezy', 'amd64')` record and a server
delivering corrupt content: the raised message carries the expected and
the actual digest, and the stamp stays unwritten. -/
theorem installSysroot_checksum_mismatch_witness :
    (InstallSysroot wBadSha "Wheezy" "amd64").outcome =
      .error ("Tarball sha1sum is wrong.Expected d67377aedc8ca477a50cc75aeb59542c8cd98894, actual: feedfeedfeedfeedfeedfeedfeedfeedfeedfeed") ∧
    (InstallSysroot wBadSha "Wheezy" "amd64").world.stamp = none :=
  ⟨(installSysroot_checksum_mismatch wBadSha "Wheezy" "amd64" wheezyAmd64 rfl
      (by decide) (by decide)).1,
   (installSysroot_checksum_mismatch wBadSha "Wheezy" "amd64" wheezyAmd64 rfl
      (by decide) (by decide)).2.1⟩

/-- Witness for C3 at the `('Wheezy', 'amd64')` record after a fresh
install over a stale directory: the stamp is the composed URL. -/
theorem installSysroot_stamp_correct_witness :
    (InstallSysroot wStale "Wheezy" "amd64").world.stamp =
      some "https://commondatastorage.googleapis.com/chrome-linux-sysroot/toolchain/e964581657e61f47a74b7e2e34e33744ac53d5a6/debian_wheezy_amd64_sysroot.tgz" :=
  installSysroot_stamp_correct wStale "Wheezy" "amd64" wheezyAmd64 rfl rfl

/-- Witness for C4 at the `('Wheezy', 'amd64')` record on a world with a
stale stamp: the full reset-and-reinstall trace. -/
theorem installSysroot_stale_reset_witness :
    (InstallSysroot wStale "Wheezy" "amd64").events =
      [.printMsg "Installing Debian Wheezy amd64 root image: build/linux/debian_wheezy_amd64-sysroot",
       .rmtree "build/linux/debian_wheezy_amd64-sysroot",
       .mkdir "build/linux/debian_wheezy_amd64-sysroot",
       .printMsg "Downloading https://commondatastorage.googleapis.com/chrome-linux-sysroot/toolchain/e964581657e61f47a74b7e2e34e33744ac53d5a6/debian_wheezy_amd64_sysroot.tgz",
       .download "https://commondatastorage.googleapis.com/chrome-linux-sysroot/toolchain/e964581657e61f47a74b7e2e34e33744ac53d5a6/debian_wheezy_amd64_sysroot.tgz",
       .extract "build/linux/debian_wheezy_amd64-sysroot",
       .removeTarball "build/linux/debian_wheezy_amd64-sysroot/debian_wheezy_amd64_sysroot.tgz",
       .writeStamp "https://commondatastorage.googleapis.com/chrome-linux-sysroot/toolchain/e964581657e61f47a74b7e2e34e33744ac53d5a6/debian_wheezy_amd64_sysroot.tgz"] :=
  (installSysroot_stale_reset wStale "Wheezy" "amd64" wheezyAmd64 rfl (by decide)
      rfl).trans (by decide)

/-- C6: in hook mode with host `amd64` and detected target `arm` the
default policy selects exactly the four listed sysroots, duplicate-free,
in this fixed order. -/
theorem installDefaultSysroots_amd64_arm :
    InstallDefaultSysroots "amd64" (some "arm") =
      .ok [("Wheezy", "amd64"), ("Wheezy", "i386"), ("Precise", "amd64"), ("Wheezy", "arm")] ∧
    [(("Wheezy", "amd64") : String × String), ("Wheezy", "i386"),
      ("Precise", "amd64"), ("Wheezy", "arm")].Nodup :=
  ⟨rfl, by decide⟩

/-- C7 counterexample: with host `arm` (not `amd64`, so no 32-bit variant
was installed) and detected target `i386`, the policy does NOT install the
i386 sysroot — refuting the claim's `in particular` clause. -/
theorem installDefaultSysroots_i386_target_skipped :
    InstallDefaultSysroots "arm" (some "i386") =
      .ok [("Wheezy", "arm"), ("Precise", "amd64")] ∧
    (("Wheezy", "i386") : String × String) ∉
      [(("Wheezy", "arm") : String × String), ("Precise", "amd64")] :=
  ⟨rfl, by decide⟩

/-- C7 (amended): the extra target sysroot is installed exactly when a
target architecture is detected and differs from both the host
architecture and `'i386'` — the `'i386'` exclusion applies regardless of
whether the 32-bit variant was actually installed. -/
theorem installDefaultSysroots_target_condition (h t : String)
    (hh : h ∈ valid_archs) (ht : t ∈ valid_archs) :
    ∃ base k, InstallDefaultSysroots h none = .ok base ∧
      InstallDefaultSysrootForArch t = .ok k ∧
      InstallDefaultSysroots h (some t) =
        .ok (base ++ if t ≠ h ∧ t ≠ "i386" then [k] else []) := by
  simp only [valid_archs, List.mem_cons, List.not_mem_nil, or_false] at hh ht
  rcases hh with rfl | rfl | rfl | rfl | rfl <;>
    rcases ht with rfl | rfl | rfl | rfl | rfl <;>
    exact ⟨_, _, rfl, rfl, rfl⟩

/-- Witness for C7 (amended) at host `arm`, target `i386`: the condition
is false, so the selection is just the base selection. -/
theorem installDefaultSysroots_target_condition_witness :
    ("arm" ∈ valid_archs ∧ "i386" ∈ valid_archs) ∧
    ∃ base k, InstallDefaultSysroots "arm" none = .ok base ∧
      InstallDefaultSysrootForArch "i386" = .ok k ∧
      InstallDefaultSysroots "arm" (some "i386") =
        .ok (base ++ if "i386" ≠ "arm" ∧ "i386" ≠ "i386" then [k] else []) :=
  ⟨⟨by decide, by decide⟩,
   installDefaultSysroots_target_condition "arm" "i386" (by decide) (by decide)⟩

/-- C8 counterexample: with both `--arch` and `--running-as-hook` omitted
the process exits 1 but the message goes to standard output; standard
error stays empty, refuting the standard-error part of the claim. -/
theorem main_usage_counterexample :
    (main true false none "amd64" (.ok ())).exitCode = 1 ∧
    (main true false none "amd64" (.ok ())).stderr = [] ∧
    (main true false none "amd64" (.ok ())).stdout =
      ["You much specify either --arch or --running-as-hook"] :=
  ⟨rfl, rfl, rfl⟩

/-- C8 (amended): omitting both flags is a usage error: `main` prints the
usage message to standard output (a Python 2 `print` statement) and exits
with code 1; nothing is written to standard error. -/
theorem main_usage_error (isLinux : Bool) (host_arch : String)
    (install : Except String Unit) :
    main isLinux false none host_arch install =
      { exitCode := 1
        stdout := ["You much specify either --arch or --running-as-hook"]
        stderr := [] } := by
  simp [main]

/-- C9: every token of the CLI `--arch` choice list dispatches through
`InstallDefaultSysrootForArch` to a key present in the sysroot table; its
unknown-architecture branch is unreachable from `--arch`. -/
theorem validArchs_dispatch_in_table (a : String) (ha : a ∈ valid_archs) :
    ∃ k, InstallDefaultSysrootForArch a = .ok k ∧
      (lookupSysroot k.1 k.2).isSome = true := by
  simp only [valid_archs, List.mem_cons, List.not_mem_nil, or_false] at ha
  rcases ha with rfl | rfl | rfl | rfl | rfl <;> exact ⟨_, rfl, rfl⟩

/-- Witness for C9 at the token `arm`. -/
theorem validArchs_dispatch_in_table_witness :
    "arm" ∈ valid_archs ∧
    ∃ k, InstallDefaultSysrootForArch "arm" = .ok k ∧
      (lookupSysroot k.1 k.2).isSome = true :=
  ⟨by decide, validArchs_dispatch_in_table "arm" (by decide)⟩

/-- Witness for C5 at the absent key `('Wheezy', 's390')`. -/
theorem installSysroot_unknown_rejected_witness :
    InstallSysroot wBadSha "Wheezy" "s390" =
      { events := []
        outcome := .error "No sysroot for: Wheezy s390"
        world := wBadSha } :=
  installSysroot_unknown_rejected wBadSha "Wheezy" "s390" rfl

end SysrootInstaller

namespace ManifestCollator
theorem MergeDicts_nil (l : List (String × JValue)) : MergeDicts l [] = .ok l := by
  simp [MergeDicts]

theorem MergeDicts_cons (l : List (String × JValue)) (k : String) (v : JValue) (rest : List (String × JValue)) :
    MergeDicts l ((k, v) :: rest) =
      match mergeEntry l k v with
      | .ok left1 => MergeDicts left1 rest
      | .error e => .error e := by
  rw [MergeDicts]

example : MergeDicts [("a", .num 1)] [("b", .num 2)] = .ok [("a", .num 1), ("b", .num 2)] := by
  simp [MergeDicts, mergeEntry, lookupKey]

theorem lookupKey_append_ne (l : List (String × JValue)) (k₀ k : String) (v₀ : JValue)
    (h : k₀ ≠ k) : lookupKey (l ++ [(k₀, v₀)]) k = lookupKey l k := by
  induction l with
  | nil => simp [lookupKey, h]
  | cons e rest ih =>
      obtain ⟨k', v'⟩ := e
      by_cases hk : k' = k <;> simp [lookupKey, hk, ih]

theorem lookupKey_append_self (l : List (String × JValue)) (k : String) (v₀ : JValue)
    (h : lookupKey l k = none) : lookupKey (l ++ [(k, v₀)]) k = some v₀ := by
  induction l with
  | nil => simp [lookupKey]
  | cons e rest ih =>
      obtain ⟨k', v'⟩ := e
      by_cases hk : k' = k
      · simp [lookupKey, hk] at h
      · simp [lookupKey, hk] at h ⊢
        exact ih h

theorem lookupKey_updateKey_ne (l : List (String × JValue)) (k₀ k : String) (v : JValue)
    (h : k₀ ≠ k) : lookupKey (updateKey l k₀ v) k = lookupKey l k := by
  induction l with
  | nil => simp [updateKey]
  | cons e rest ih =>
      obtain ⟨k', v'⟩ := e
      by_cases hk : k' = k₀
      · subst hk
        simp [updateKey, lookupKey, h]
      · simp [updateKey, lookupKey, hk, ih]

theorem lookupKey_updateKey_self (l : List (String × JValue)) (k : String) (v lv : JValue)
    (h : lookupKey l k = some lv) : lookupKey (updateKey l k v) k = some v := by
  induction l with
  | nil => simp [lookupKey] at h
  | cons e rest ih =>
      obtain ⟨k', v'⟩ := e
      by_cases hk : k' = k
      · subst hk
        simp [updateKey, lookupKey]
      · simp [lookupKey, hk] at h
        simp [updateKey, lookupKey, hk, ih h]

theorem mergeEntry_insert (l : List (String × JValue)) (k : String) (v : JValue)
    (h : lookupKey l k = none) : mergeEntry l k v = .ok (l ++ [(k, v)]) := by
  rw [mergeEntry, h]

theorem mergeEntry_obj_obj (l : List (String × JValue)) (k : String)
    (rE lE : List (String × JValue)) (h : lookupKey l k = some (.obj lE)) :
    mergeEntry l k (.obj rE) =
      match MergeDicts lE rE with
      | .ok m => .ok (updateKey l k (.obj m))
      | .error e => .error e := by
  rw [mergeEntry, h]

theorem mergeEntry_arr_arr (l : List (String × JValue)) (k : String)
    (rxs lxs : List JValue) (h : lookupKey l k = some (.arr lxs)) :
    mergeEntry l k (.arr rxs) = .ok (updateKey l k (.arr (lxs ++ rxs))) := by
  rw [mergeEntry, h]

theorem mergeEntry_conflict (l : List (String × JValue)) (k : String) (v lv : JValue)
    (h : lookupKey l k = some lv)
    (hobj : ∀ es, v ≠ .obj es) (harr : ∀ xs, v ≠ .arr xs) :
    mergeEntry l k v = .error "Refusing to merge conflicting non-collection values." := by
  rw [mergeEntry, h]
  cases v with
  | obj es => exact absurd rfl (hobj es)
  | arr xs => exact absurd rfl (harr xs)
  | null => cases lv <;> rfl
  | bool b => cases lv <;> rfl
  | num n => cases lv <;> rfl
  | str s => cases lv <;> rfl

theorem mergeEntry_obj_assert (l : List (String × JValue)) (k : String)
    (rE : List (String × JValue)) (lv : JValue) (h : lookupKey l k = some lv)
    (hlv : ∀ es, lv ≠ .obj es) :
    mergeEntry l k (.obj rE) = .error "AssertionError: isinstance(left[k], dict)" := by
  rw [mergeEntry, h]
  cases lv with
  | obj es => exact absurd rfl (hlv es)
  | null => rfl
  | bool b => rfl
  | num n => rfl
  | str s => rfl
  | arr xs => rfl

theorem mergeEntry_arr_assert (l : List (String × JValue)) (k : String)
    (rxs : List JValue) (lv : JValue) (h : lookupKey l k = some lv)
    (hlv : ∀ xs, lv ≠ .arr xs) :
    mergeEntry l k (.arr rxs) = .error "AssertionError: isinstance(left[k], list)" := by
  rw [mergeEntry, h]
  cases lv with
  | arr xs => exact absurd rfl (hlv xs)
  | null => rfl
  | bool b => rfl
  | num n => rfl
  | str s => rfl
  | obj es => rfl

theorem mergeEntry_lookup_ne (l l₁ : List (String × JValue)) (k₀ : String) (v₀ : JValue)
    (k : String) (h : mergeEntry l k₀ v₀ = .ok l₁) (hk : k₀ ≠ k) :
    lookupKey l₁ k = lookupKey l k := by
  cases hlk : lookupKey l k₀ with
  | none =>
      rw [mergeEntry_insert l k₀ v₀ hlk] at h
      simp only [Except.ok.injEq] at h
      subst h
      exact lookupKey_append_ne l k₀ k v₀ hk
  | some lv =>
      cases v₀ with
      | obj rE =>
          rcases hlvcase : lv with _ | b' | n' | s' | lxs | lE
          case obj =>
              rw [hlvcase] at hlk
              rw [mergeEntry_obj_obj l k₀ rE lE hlk] at h
              cases hm : MergeDicts lE rE with
              | ok m =>
                  rw [hm] at h
                  simp only [Except.ok.injEq] at h
                  subst h
                  exact lookupKey_updateKey_ne l k₀ k _ hk
              | error e =>
                  rw [hm] at h
                  exact nomatch h
          all_goals
            rw [hlvcase] at hlk
            rw [mergeEntry_obj_assert l k₀ rE _ hlk
              (fun es he => JValue.noConfusion he)] at h
            exact nomatch h
      | arr rxs =>
          rcases hlvcase : lv with _ | b' | n' | s' | lxs | lE
          case arr =>
              rw [hlvcase] at hlk
              rw [mergeEntry_arr_arr l k₀ rxs lxs hlk] at h
              simp only [Except.ok.injEq] at h
              subst h
              exact lookupKey_updateKey_ne l k₀ k _ hk
          all_goals
            rw [hlvcase] at hlk
            rw [mergeEntry_arr_assert l k₀ rxs _ hlk
              (fun xs he => JValue.noConfusion he)] at h
            exact nomatch h
      | null =>
          rw [mergeEntry_conflict l k₀ _ lv hlk
            (fun es he => JValue.noConfusion he) (fun xs he => JValue.noConfusion he)] at h
          exact nomatch h
      | bool b =>
          rw [mergeEntry_conflict l k₀ _ lv hlk
            (fun es he => JValue.noConfusion he) (fun xs he => JValue.noConfusion he)] at h
          exact nomatch h
      | num n =>
          rw [mergeEntry_conflict l k₀ _ lv hlk
            (fun es he => JValue.noConfusion he) (fun xs he => JValue.noConfusion he)] at h
          exact nomatch h
      | str s =>
          rw [mergeEntry_conflict l k₀ _ lv hlk
            (fun es he => JValue.noConfusion he) (fun xs he => JValue.noConfusion he)] at h
          exact nomatch h

theorem lookupKey_eq_none_iff (l : List (String × JValue)) (k : String) :
    lookupKey l k = none ↔ k ∉ l.map Prod.fst := by
  induction l with
  | nil => simp [lookupKey]
  | cons e rest ih =>
      obtain ⟨k', v'⟩ := e
      by_cases hk : k' = k
      · subst hk
        simp [lookupKey]
      · have hk' : ¬k = k' := fun hc => hk hc.symm
        simp [lookupKey, hk, hk', ih]

theorem MergeDicts_lookup_of_not_mem (r : List (String × JValue)) :
    ∀ (l res : List (String × JValue)) (k : String),
      k ∉ r.map Prod.fst → MergeDicts l r = .ok res →
      lookupKey res k = lookupKey l k := by
  induction r with
  | nil =>
      intro l res k _ h
      rw [MergeDicts_nil] at h
      simp only [Except.ok.injEq] at h
      subst h
      rfl
  | cons e rest ih =>
      obtain ⟨k₀, v₀⟩ := e
      intro l res k hmem h
      simp only [List.map_cons, List.mem_cons] at hmem
      push_neg at hmem
      obtain ⟨hk₀, hrest⟩ := hmem
      rw [MergeDicts_cons] at h
      cases hme : mergeEntry l k₀ v₀ with
      | ok l₁ =>
          rw [hme] at h
          rw [ih l₁ res k hrest h]
          exact mergeEntry_lookup_ne l l₁ k₀ v₀ k hme (fun hc => hk₀ hc.symm)
      | error e =>
          rw [hme] at h
          exact nomatch h

theorem MergeDicts_lookup_right_only (r : List (String × JValue)) :
    ∀ (l res : List (String × JValue)) (k : String) (v : JValue),
      (r.map Prod.fst).Nodup → lookupKey r k = some v → lookupKey l k = none →
      MergeDicts l r = .ok res → lookupKey res k = some v := by
  induction r with
  | nil =>
      intro l res k v _ hr _ _
      simp [lookupKey] at hr
  | cons e rest ih =>
      obtain ⟨k₀, v₀⟩ := e
      intro l res k v hnd hr hl h
      rw [MergeDicts_cons] at h
      simp only [List.map_cons, List.nodup_cons] at hnd
      obtain ⟨hk₀rest, hndrest⟩ := hnd
      by_cases hk : k₀ = k
      · subst hk
        simp [lookupKey] at hr
        subst hr
        rw [mergeEntry_insert l k₀ v₀ hl] at h
        rw [MergeDicts_lookup_of_not_mem rest _ res k₀ hk₀rest h]
        exact lookupKey_append_self l k₀ v₀ hl
      · simp [lookupKey, hk] at hr
        cases hme : mergeEntry l k₀ v₀ with
        | ok l₁ =>
            rw [hme] at h
            have hl₁ : lookupKey l₁ k = none := by
              rw [mergeEntry_lookup_ne l l₁ k₀ v₀ k hme hk]
              exact hl
            exact ih l₁ res k v hndrest hr hl₁ h
        | error e =>
            rw [hme] at h
            exact nomatch h

theorem MergeDicts_lookup_obj (r : List (String × JValue)) :
    ∀ (l res lE : List (String × JValue)) (k : String) (rE : List (String × JValue)),
      (r.map Prod.fst).Nodup → lookupKey r k = some (.obj rE) →
      lookupKey l k = some (.obj lE) → MergeDicts l r = .ok res →
      ∃ m, MergeDicts lE rE = .ok m ∧ lookupKey res k = some (.obj m) := by
  induction r with
  | nil =>
      intro l res lE k rE _ hr _ _
      simp [lookupKey] at hr
  | cons e rest ih =>
      obtain ⟨k₀, v₀⟩ := e
      intro l res lE k rE hnd hr hl h
      rw [MergeDicts_cons] at h
      simp only [List.map_cons, List.nodup_cons] at hnd
      obtain ⟨hk₀rest, hndrest⟩ := hnd
      by_cases hk : k₀ = k
      · subst hk
        simp [lookupKey] at hr
        subst hr
        rw [mergeEntry_obj_obj l k₀ rE lE hl] at h
        cases hm : MergeDicts lE rE with
        | ok m =>
            rw [hm] at h
            refine ⟨m, rfl, ?_⟩
            rw [MergeDicts_lookup_of_not_mem rest _ res k₀ hk₀rest h]
            exact lookupKey_updateKey_self l k₀ _ _ hl
        | error e =>
            rw [hm] at h
            exact nomatch h
      · simp [lookupKey, hk] at hr
        cases hme : mergeEntry l k₀ v₀ with
        | ok l₁ =>
            rw [hme] at h
            have hl₁ : lookupKey l₁ k = some (.obj lE) := by
              rw [mergeEntry_lookup_ne l l₁ k₀ v₀ k hme hk]
              exact hl
            exact ih l₁ res lE k rE hndrest hr hl₁ h
        | error e =>
            rw [hme] at h
            exact nomatch h

theorem MergeDicts_lookup_arr (r : List (String × JValue)) :
    ∀ (l res : List (String × JValue)) (k : String) (rxs lxs : List JValue),
      (r.map Prod.fst).Nodup → lookupKey r k = some (.arr rxs) →
      lookupKey l k = some (.arr lxs) → MergeDicts l r = .ok res →
      lookupKey res k = some (.arr (lxs ++ rxs)) := by
  induction r with
  | nil =>
      intro l res k rxs lxs _ hr _ _
      simp [lookupKey] at hr
  | cons e rest ih =>
      obtain ⟨k₀, v₀⟩ := e
      intro l res k rxs lxs hnd hr hl h
      rw [MergeDicts_cons] at h
      simp only [List.map_cons, List.nodup_cons] at hnd
      obtain ⟨hk₀rest, hndrest⟩ := hnd
      by_cases hk : k₀ = k
      · subst hk
        simp [lookupKey] at hr
        subst hr
        rw [mergeEntry_arr_arr l k₀ rxs lxs hl] at h
        rw [MergeDicts_lookup_of_not_mem rest _ res k₀ hk₀rest h]
        exact lookupKey_updateKey_self l k₀ _ _ hl
      · simp [lookupKey, hk] at hr
        cases hme : mergeEntry l k₀ v₀ with
        | ok l₁ =>
            rw [hme] at h
            have hl₁ : lookupKey l₁ k = some (.arr lxs) := by
              rw [mergeEntry_lookup_ne l l₁ k₀ v₀ k hme hk]
              exact hl
            exact ih l₁ res k rxs lxs hndrest hr hl₁ h
        | error e =>
            rw [hme] at h
            exact nomatch h

theorem MergeDicts_conflict (r : List (String × JValue)) :
    ∀ (l : List (String × JValue)) (k : String) (v lv : JValue),
      lookupKey r k = some v → lookupKey l k = some lv →
      (∀ es, v ≠ .obj es) → (∀ xs, v ≠ .arr xs) →
      ∃ msg, MergeDicts l r = .error msg := by
  induction r with
  | nil =>
      intro l k v lv hr _ _ _
      simp [lookupKey] at hr
  | cons e rest ih =>
      obtain ⟨k₀, v₀⟩ := e
      intro l k v lv hr hl hobj harr
      rw [MergeDicts_cons]
      by_cases hk : k₀ = k
      · subst hk
        simp [lookupKey] at hr
        subst hr
        rw [mergeEntry_conflict l k₀ _ lv hl hobj harr]
        exact ⟨_, rfl⟩
      · simp [lookupKey, hk] at hr
        cases hme : mergeEntry l k₀ v₀ with
        | ok l₁ =>
            have hl₁ : lookupKey l₁ k = some lv := by
              rw [mergeEntry_lookup_ne l l₁ k₀ v₀ k hme hk]
              exact hl
            exact ih l₁ k v lv hr hl₁ hobj harr
        | error e => exact ⟨e, rfl⟩

/-- C10: `MergeDicts` merges `right` into `left`: keys absent from
`right` keep `left`'s value; a key present only in `right` receives
`right`'s value; a shared key with two dict values is merged recursively
by the same rules; a shared key with two list values becomes `left`'s
elements followed by `right`'s; and a shared key whose right-hand value is
neither a dict nor a list makes `MergeDicts` raise instead of overwriting
(Python mutates `left` in place and returns it; the embedding returns the
merged dictionary). `right` is iterated as a Python dict, so its keys are
distinct. -/
theorem mergeDicts_spec (l r : List (String × JValue))
    (hnd : (r.map Prod.fst).Nodup) :
    (∀ k, lookupKey r k = none →
       ∀ res, MergeDicts l r = .ok res → lookupKey res k = lookupKey l k) ∧
    (∀ k v, lookupKey r k = some v → lookupKey l k = none →
       ∀ res, MergeDicts l r = .ok res → lookupKey res k = some v) ∧
    (∀ k rE lE, lookupKey r k = some (.obj rE) → lookupKey l k = some (.obj lE) →
       ∀ res, MergeDicts l r = .ok res →
       ∃ m, MergeDicts lE rE = .ok m ∧ lookupKey res k = some (.obj m)) ∧
    (∀ k rxs lxs, lookupKey r k = some (.arr rxs) → lookupKey l k = some (.arr lxs) →
       ∀ res, MergeDicts l r = .ok res → lookupKey res k = some (.arr (lxs ++ rxs))) ∧
    (∀ k v lv, lookupKey r k = some v → lookupKey l k = some lv →
       (∀ es, v ≠ .obj es) → (∀ xs, v ≠ .arr xs) →
       ∃ msg, MergeDicts l r = .error msg) := by
  refine ⟨?_, ?_, ?_, ?_, ?_⟩
  · intro k hr res h
    exact MergeDicts_lookup_of_not_mem r l res k
      ((lookupKey_eq_none_iff r k).mp hr) h
  · intro k v hr hl res h
    exact MergeDicts_lookup_right_only r l res k v hnd hr hl h
  · intro k rE lE hr hl res h
    exact MergeDicts_lookup_obj r l res lE k rE hnd hr hl h
  · intro k rxs lxs hr hl res h
    exact MergeDicts_lookup_arr r l res k rxs lxs hnd hr hl h
  · intro k v lv hr hl hobj harr
    exact MergeDicts_conflict r l k v lv hr hl hobj harr

/-- Witness for C10 on a concrete manifest/overlay pair: the overlay keys
are distinct, the merge evaluates to the expected dictionary, and the
new-key clause of the theorem applies. -/
theorem mergeDicts_spec_witness :
    (List.map Prod.fst wR).Nodup ∧
    MergeDicts wL wR =
      .ok [("name", .str "svc"),
           ("capabilities", .obj [("a", .arr [.num 1, .num 2]), ("b", .bool true)]),
           ("services", .arr [.str "x", .str "y"]),
           ("extra", .num 7)] ∧
    (∀ k v, lookupKey wR k = some v → lookupKey wL k = none →
       ∀ res, MergeDicts wL wR = .ok res → lookupKey res k = some v) :=
  ⟨by decide,
   by simp [MergeDicts, mergeEntry, lookupKey, updateKey, wL, wR],
   (mergeDicts_spec wL wR (by decide)).2.1⟩

end ManifestCollator
